import Mathlib

/-!
A shallow embedding, in Lean 4, of the booking orchestration core of
`doctoshotgun.py` (a vaccine-appointment booking script), together with
theorems settling a list of claims about it.

Modelling conventions:
* JSON strings are Lean `String`s; for the city-normalization function,
  which works character-by-character over Unicode, strings are modelled as
  lists of codepoints (`List Nat`) so that the per-character tables can be
  spelled out.
* Numeric JSON identifiers are `Nat`.  The source stringifies ids with
  `str(...)` and parses them back with `int(...)`; since both sides are
  canonical decimal numerals this round trip is the identity and the
  embedding keeps ids as `Nat`, converting to `String` exactly where the
  source calls `str`.
* Network calls are modelled by an explicit environment record supplying
  the parsed response of each endpoint, and each executed request is
  recorded in an output trace, so that theorems can speak about which
  requests a run issues and in which order.
* The two sources of partiality are modelled explicitly: the availability
  polling `while` loop receives fuel (`Outcome.diverge` when exhausted),
  and uncaught Python exceptions (`IndexError` on `steps[1]` or
  `practice_ids[0]`, `TypeError` on subscripting a non-dict slot) become
  `Outcome.crash`.
-/

namespace Docto

/-- One entry of a slot's `steps` array: the source reads only its
`start_date` string (`slot.steps[1].start_date`). -/
structure JStep where
  start_date : String
deriving DecidableEq, Repr

/-- A JSON value stored in a day-entry's `slots` array.  The source reads
`start_date` and `steps` of a slot object, and guards against a non-dict
value with `isinstance(slot, dict)`; a non-dict value is modelled as
`scalar` carrying its Python truthiness (the source also tests `if not
slot:`). -/
inductive JSlot where
| obj (start_date : String) (steps : List JStep)
| scalar (truthy : Bool)
deriving DecidableEq, Repr

/-- One day-entry of an `availabilities` array: the source reads only its
`slots` array. -/
structure Day where
  slots : List JSlot
deriving DecidableEq, Repr

/-- `AvailabilitiesPage.find_best_slot`: iterate over the day-entries of
`self.doc['availabilities']`; skip an entry whose `slots` has length 0;
on the first other entry return `a['slots'][-1]` (the last element); if
the loop finishes, Python implicitly returns `None`. -/
def find_best_slot : List Day → Option JSlot
| [] => none
| d :: rest => if d.slots.length = 0 then find_best_slot rest else d.slots.getLast?

/-- One entry of the booking page's `agendas` array, with the four keys
`CenterBookingPage.get_agenda_ids` reads. -/
structure Agenda where
  id : Nat
  visit_motive_ids : List Nat
  booking_disabled : Bool
  practice_id : Nat
deriving DecidableEq, Repr

/-- Python truthiness of the optional `practice_id` argument: the source
tests `not practice_id`, which is `True` both when the argument is absent
(`None`) and when it is the integer `0`. -/
def practiceFalsy : Option Nat → Bool
| none => true
| some p => p == 0

/-- The condition of `CenterBookingPage.get_agenda_ids`'s inner `if`:
`int(motive_id) in a['visit_motive_ids'] and not a['booking_disabled'] and
(not practice_id or a['practice_id'] == practice_id)`. -/
def agendaMatch (a : Agenda) (practice_id : Option Nat) (m : Nat) : Bool :=
  a.visit_motive_ids.contains m && !a.booking_disabled &&
    (practiceFalsy practice_id || a.practice_id == practice_id.getD 0)

/-- `CenterBookingPage.get_agenda_ids(motive_ids, practice_id=None)`: for
each agenda `a` (in order), for each `motive_id` (in order), append
`str(a['id'])` when the condition holds.  The nested `for` loops with an
append are exactly a `flatMap` of a filtered `map`. -/
def get_agenda_ids (agendas : List Agenda) (motive_ids : List Nat)
    (practice_id : Option Nat) : List String :=
  agendas.flatMap (fun a =>
    (motive_ids.filter (agendaMatch a practice_id)).map (fun _ => toString a.id))

/-! City normalization (`Doctolib.normalize`).  The source performs, on a
Python `str`: `unicodedata.normalize('NFKD', s)`, then drops combining
characters, then `re.sub(r'\W', '-', ...)`, then `.lower()`.  Strings are
modelled as codepoint lists.  The Unicode tables are modelled on a
representative fragment: NFKD decomposition is given by an explicit table
covering common Latin-1 accented letters (identity elsewhere), a combining
character is one of the Combining Diacritical Marks block U+0300..U+036F,
and the regex word class `\w` is ASCII alphanumerics plus underscore (the
ASCII fragment of Python's Unicode-aware `\w`; after decomposition and
mark stripping the table's image is ASCII).  `\W`, being the negation of
`\w`, matches one single character at a time, so `re.sub(r'\W', '-', s)`
replaces every individual non-word character by one hyphen (codepoint 45).
`.lower()` is modelled on ASCII: codepoints 65..90 shift to 97..122. -/

/-- Combining-character test, modelled as membership in the Combining
Diacritical Marks block U+0300..U+036F. -/
def combiningChar (c : Nat) : Bool := 0x300 ≤ c && c ≤ 0x36F

/-- The modelled NFKD decomposition table (codepoint, decomposition):
common Latin-1 accented letters decomposed into an ASCII base letter
followed by a combining mark. -/
def nfkdPairs : List (Nat × List Nat) :=
  [ (0xC9, [0x45, 0x301]),  -- capital E acute
    (0xE0, [0x61, 0x300]),  -- a grave
    (0xE4, [0x61, 0x308]),  -- a diaeresis
    (0xE7, [0x63, 0x327]),  -- c cedilla
    (0xE8, [0x65, 0x300]),  -- e grave
    (0xE9, [0x65, 0x301]),  -- e acute
    (0xEA, [0x65, 0x302]),  -- e circumflex
    (0xEB, [0x65, 0x308]),  -- e diaeresis
    (0xF6, [0x6F, 0x308]),  -- o diaeresis
    (0xFC, [0x75, 0x308]) ] -- u diaeresis

/-- NFKD decomposition of one codepoint: table lookup, identity when the
codepoint has no decomposition. -/
def nfkdChar (c : Nat) : List Nat :=
  match nfkdPairs.find? (fun p => p.1 == c) with
  | some p => p.2
  | none => [c]

/-- `unicodedata.normalize('NFKD', s)` on the modelled fragment:
decompose every character. -/
def nfkdStr (s : List Nat) : List Nat := s.flatMap nfkdChar

/-- `u"".join([c for c in nfkd if not unicodedata.combining(c)])`. -/
def stripCombining (s : List Nat) : List Nat := s.filter (fun c => !combiningChar c)

/-- The regex word class `\w` on the modelled fragment: ASCII digits,
ASCII letters, underscore. -/
def isWordChar (c : Nat) : Bool :=
  (48 ≤ c && c ≤ 57) || (65 ≤ c && c ≤ 90) || (97 ≤ c && c ≤ 122) || c == 95

/-- `re.sub(r'\W', '-', s)`: every single character matching `\W` (i.e.
every character not in `\w`) is replaced by one hyphen (codepoint 45). -/
def subNonWord (s : List Nat) : List Nat := s.map (fun c => if isWordChar c then c else 45)

/-- ASCII `.lower()` of one codepoint. -/
def lowerChar (c : Nat) : Nat := if 65 ≤ c && c ≤ 90 then c + 32 else c

/-- `.lower()` of a string. -/
def lowerStr (s : List Nat) : List Nat := s.map lowerChar

/-- `Doctolib.normalize`: NFKD, strip combining characters, replace each
non-word character by a hyphen, lowercase. -/
def normalize (s : List Nat) : List Nat := lowerStr (subNonWord (stripCombining (nfkdStr s)))

/-- The per-character action of `normalize`: decompose, drop combining
marks, then send word characters to their lowercase form and every other
character to a hyphen. -/
def normChar (c : Nat) : List Nat :=
  ((nfkdChar c).filter (fun d => !combiningChar d)).map
    (fun d => if isWordChar d then lowerChar d else 45)

lemma normalize_nil : normalize [] = [] := rfl

lemma normalize_cons (c : Nat) (s : List Nat) :
    normalize (c :: s) = normChar c ++ normalize s := by
  simp only [normalize, normChar, nfkdStr, stripCombining, subNonWord, lowerStr,
    List.flatMap_cons, List.filter_append, List.map_append, List.map_map]
  congr 1
  apply List.map_congr_left
  intro a _
  by_cases hw : isWordChar a = true
  · simp [Function.comp, hw]
  · simp [Function.comp, hw]
    rfl

lemma normalize_eq_flatMap (s : List Nat) : normalize s = s.flatMap normChar := by
  induction s with
  | nil => rfl
  | cons c s ih => rw [normalize_cons, List.flatMap_cons, ih]

lemma normalize_append (u v : List Nat) :
    normalize (u ++ v) = normalize u ++ normalize v := by
  simp [normalize_eq_flatMap]

/-- The characters `normalize` can output are fixed points of its
per-character action: a hyphen, or the lowercase form of an ASCII word
character. -/
lemma normChar_out_fix (d : Nat)
    (hd : (48 ≤ d ∧ d ≤ 57) ∨ d = 95 ∨ (97 ≤ d ∧ d ≤ 122) ∨ d = 45) :
    normChar d = [d] := by
  have h : ∀ e, e < 123 →
      ((48 ≤ e ∧ e ≤ 57) ∨ e = 95 ∨ (97 ≤ e ∧ e ≤ 122) ∨ e = 45) →
      normChar e = [e] := by decide
  exact h d (by omega) hd

lemma lowerChar_range (e : Nat) (he : isWordChar e = true) :
    (48 ≤ lowerChar e ∧ lowerChar e ≤ 57) ∨ lowerChar e = 95 ∨
      (97 ≤ lowerChar e ∧ lowerChar e ≤ 122) := by
  simp only [isWordChar, Bool.or_eq_true, Bool.and_eq_true, decide_eq_true_eq,
    beq_iff_eq] at he
  simp only [lowerChar]
  split <;> rename_i h <;>
    simp only [Bool.and_eq_true, decide_eq_true_eq] at h <;> omega

lemma mem_normChar_fix (c d : Nat) (hd : d ∈ normChar c) : normChar d = [d] := by
  simp only [normChar, List.mem_map, List.mem_filter] at hd
  obtain ⟨e, ⟨_, _⟩, he⟩ := hd
  by_cases hw : isWordChar e = true
  · rw [if_pos hw] at he
    rcases lowerChar_range e hw with h | h | h <;> exact normChar_out_fix d (by omega)
  · rw [if_neg hw] at he
    exact normChar_out_fix d (by omega)

lemma flatMap_fix (f : Nat → List Nat) (l : List Nat) (h : ∀ d ∈ l, f d = [d]) :
    l.flatMap f = l := by
  induction l with
  | nil => rfl
  | cons a l ih =>
    rw [List.flatMap_cons, h a (List.mem_cons_self a l),
      ih (fun d hd => h d (List.mem_cons_of_mem a hd))]
    rfl

/-- `normalize` is idempotent over the modelled character domain. -/
lemma normalize_idem (s : List Nat) : normalize (normalize s) = normalize s := by
  rw [normalize_eq_flatMap (normalize s)]
  apply flatMap_fix
  intro d hd
  rw [normalize_eq_flatMap, List.mem_flatMap] at hd
  obtain ⟨c, _, hdc⟩ := hd
  exact mem_normChar_fix c d hdc

/-! The booking transaction (`Doctolib.try_to_book_place`, lines 256-362)
and its caller (`Doctolib.try_to_book`, lines 229-254), modelled as pure
functions from an explicit response environment to a trace of issued
requests plus an outcome. -/

/-- A request issued by the booking transaction, with the
request-specific fields the source fills in (fixed constants such as
`insurance_sector='public'`, `limit: 4`, `destroy_temporary`,
`source_action`, `new_patient=True` are the same on every call and are
omitted).  Each constructor corresponds to one `.go` call in the source;
note that the source has no cancellation or deletion endpoint at all.  -/
inductive Req where
| avail (start_date : String) (visit_motive_ids : String) (agenda_ids : String)
    (practice : Nat)
| create (agenda_ids : String) (profile_id : Nat) (start_date : String)
    (visit_motive_ids : String) (practice_ids : List Nat) (second_slot : Option String)
| secondAvail (start_date : String) (visit_motive_ids : String) (agenda_ids : String)
    (first_slot : String) (practice : Nat)
| editAnon (id : Nat)
| editPatient (id : Nat) (master_patient_id : Nat)
| finalize (id : Nat) (custom_fields : List (String × String))
| fetchAppt (id : Nat)
deriving DecidableEq, Repr

/-- A parsed `/availabilities.json` (or `/second_shot_availabilities.json`)
response: the optional `next_slot` date hint and the `availabilities`
day-entry list. -/
structure AvailResp where
  next_slot : Option String
  availabilities : List Day
deriving DecidableEq, Repr

/-- A parsed `/appointments.json` response: the `error` key if present
(`AppointmentPage.is_error` / `get_error`), and the appointment `id` the
source reads on the success path. -/
structure ApptResp where
  error : Option String
  id : Nat
deriving DecidableEq, Repr

/-- One entry of the appointment-edit page's `custom_fields`
(`AppointmentEditPage.get_custom_fields` yields the required ones). -/
structure Field where
  id : String
  label : String
  placeholder : String
  required : Bool
deriving DecidableEq, Repr

/-- The master-patient record fields the transaction reads. -/
structure Patient where
  id : Nat
  first_name : String
  last_name : String
deriving DecidableEq, Repr

/-- The environment of one `try_to_book_place` run: today's date and the
parsed response of each endpoint the transaction may hit, in program
order.  Both appointment-creation calls go to `/appointments.json`; the
server's two answers are `first_create` and `second_create`. -/
structure PlaceEnv where
  today : String
  avail : String → AvailResp
  first_create : ApptResp
  second_avail : AvailResp
  second_create : ApptResp
  custom_fields : List Field
  stdin : String → String
  redirection : Option String
  confirmed : Bool
  patient : Patient

/-- How a `try_to_book_place` run ends: a Python return value, an
uncaught exception, or (a modelling artifact) polling fuel exhaustion. -/
inductive Outcome where
| ret (b : Bool)
| crash
| diverge
deriving DecidableEq, Repr

/-- `'-'.join` over stringified numeric ids. -/
def joinIds (l : List Nat) : String := "-".intercalate (l.map toString)

/-- `s.split('T')[0]`: the part of `s` before the first `T`. -/
def dateOnly (s : String) : String := ⟨s.data.takeWhile (fun c => c ≠ 'T')⟩

/-- The availability polling loop of `try_to_book_place` (lines 257-269):
query `/availabilities.json` with the current `start_date`; while the
response carries `next_slot`, re-query with that date.  Returns the trace
of issued requests and the final response (`none` when the given fuel is
exhausted before the loop ends, i.e. the Python loop would still be
running). -/
def poll (env : PlaceEnv) (jm ja : String) (practice : Nat) :
    Nat → String → List Req × Option AvailResp
| 0, _ => ([], none)
| fuel+1, date =>
  let r := env.avail date
  match r.next_slot with
  | none => ([Req.avail date jm ja practice], some r)
  | some d =>
    let rest := poll env jm ja practice fuel d
    (Req.avail date jm ja practice :: rest.1, rest.2)

/-- The body of `Doctolib.try_to_book_place` after the polling loop
(lines 271-362), given the final availabilities response: fail on an
empty `availabilities` list, a missing best slot (`if not slot:`) or a
non-dict best slot (`isinstance` guard); submit the first-dose creation
payload; on an error response fail; read `slot['steps'][1]` (missing
raises `IndexError`); query `/second_shot_availabilities.json` with
`first_slot` pinned to the booked `start_date`; fail when no (or a falsy)
second slot, crash on a truthy non-dict one (`second_slot['start_date']`
raises `TypeError`); re-submit the same payload with `second_slot` added;
on an error response fail; then fetch the edit page anonymously and for
the chosen patient, assemble the required custom fields (`cov19` forced
to `Non`, a non-empty placeholder used verbatim, otherwise a line read
from standard input), PUT the finalize payload, re-fetch the appointment
and return its `confirmed` flag.  Returns the requests issued after
polling, and the outcome. -/
def book_after_poll (env : PlaceEnv) (profile_id : Nat) (motive_ids : List Nat)
    (practice_id : Nat) (agenda_ids : List String) (resp : AvailResp) :
    List Req × Outcome :=
  let jm := joinIds motive_ids
  let ja := "-".intercalate agenda_ids
  if resp.availabilities.length = 0 then ([], Outcome.ret false)
  else
    match find_best_slot resp.availabilities with
    | none => ([], Outcome.ret false)
    | some (JSlot.scalar _) => ([], Outcome.ret false)
    | some (JSlot.obj sd steps) =>
      let c1 := Req.create ja profile_id sd jm [practice_id] none
      match env.first_create.error with
      | some _ => ([c1], Outcome.ret false)
      | none =>
        match steps.get? 1 with
        | none => ([c1], Outcome.crash)
        | some st =>
          let sa := Req.secondAvail (dateOnly st.start_date) jm ja sd practice_id
          match find_best_slot env.second_avail.availabilities with
          | none => ([c1, sa], Outcome.ret false)
          | some (JSlot.scalar false) => ([c1, sa], Outcome.ret false)
          | some (JSlot.scalar true) => ([c1, sa], Outcome.crash)
          | some (JSlot.obj sd2 _) =>
            let c2 := Req.create ja profile_id sd jm [practice_id] (some sd2)
            match env.second_create.error with
            | some _ => ([c1, sa, c2], Outcome.ret false)
            | none =>
              let aid := env.second_create.id
              let vals := (env.custom_fields.filter (fun f => f.required)).map
                (fun f => (f.id,
                  if f.id = "cov19" then "Non"
                  else if f.placeholder ≠ "" then f.placeholder
                  else env.stdin f.id))
              ([c1, sa, c2, Req.editAnon aid,
                Req.editPatient aid env.patient.id, Req.finalize aid vals,
                Req.fetchAppt aid], Outcome.ret env.confirmed)

/-- `Doctolib.try_to_book_place` (lines 256-362): run the availability
polling loop, then the rest of the transaction on the final response; the
full request trace is the polling requests followed by the post-poll
requests. -/
def try_to_book_place (env : PlaceEnv) (profile_id : Nat) (motive_ids : List Nat)
    (practice_id : Nat) (agenda_ids : List String) (fuel : Nat) : List Req × Outcome :=
  let p := poll env (joinIds motive_ids) ("-".intercalate agenda_ids) practice_id
    fuel env.today
  match p.2 with
  | none => (p.1, Outcome.diverge)
  | some resp =>
    let t := book_after_poll env profile_id motive_ids practice_id agenda_ids resp
    (p.1 ++ t.1, t.2)

/-- One entry of the booking page's `places` array: the source reads
`name` and `practice_ids` (taking element 0). -/
structure Place where
  name : String
  practice_ids : List Nat
deriving DecidableEq, Repr

/-- One entry of the booking page's `visit_motives` array. -/
structure VisitMotive where
  id : Nat
  name : String
deriving DecidableEq, Repr

/-- The booking-page document (`CenterBookingPage`): the keys the booking
flow reads. -/
structure BookingDoc where
  profile_id : Nat
  visit_motives : List VisitMotive
  places : List Place
  agendas : List Agenda
deriving DecidableEq, Repr

/-- Substring occurrence over character lists: `pat` starts at some
position of `s`. -/
def hasInfix : List Char → List Char → Bool
| [], pat => pat.isEmpty
| c :: rest, pat => pat.isPrefixOf (c :: rest) || hasInfix rest pat

/-- Substring test: `pat` occurs somewhere in `s`. -/
def containsSub (s pat : String) : Bool := hasInfix s.data pat.data

/-- `CenterBookingPage.find_motive` applied to the fixed pattern
`r'.*(Pfizer|Moderna|Janssen)'` (line 236): `re.search` with this pattern
succeeds exactly when the motive name contains one of the three vaccine
names as a substring. -/
def find_motive (doc : BookingDoc) : List Nat :=
  (doc.visit_motives.filter (fun m =>
    containsSub m.name "Pfizer" || containsSub m.name "Moderna" ||
      containsSub m.name "Janssen")).map (fun m => m.id)

/-- The record kept for one place tried by `try_to_book`: the practice id
(`place['practice_ids'][0]`), the result of the practice-scoped
`get_agenda_ids` call, whether the unscoped fallback call was performed,
the agenda ids actually used, and the requests and outcome of the
`try_to_book_place` run. -/
structure PlaceAttempt where
  practice : Nat
  scopedIds : List String
  fallback : Bool
  agenda_ids : List String
  reqs : List Req
  outcome : Outcome
deriving DecidableEq, Repr

/-- The per-place loop of `Doctolib.try_to_book` (lines 243-253): for
each place, take `practice_ids[0]` (an empty list would raise
`IndexError`), compute the practice-scoped agenda ids, fall back to the
unscoped call exactly when the scoped result is empty, run
`try_to_book_place`, and stop on `True`; on `False` continue with the
next place. -/
def bookPlaces (doc : BookingDoc) (penv : Nat → PlaceEnv) (fuel : Nat)
    (motive_ids : List Nat) : Nat → List Place → List PlaceAttempt × Outcome
| _, [] => ([], Outcome.ret false)
| i, pl :: rest =>
  match pl.practice_ids.head? with
  | none => ([], Outcome.crash)
  | some practice =>
    let scopedIds := get_agenda_ids doc.agendas motive_ids (some practice)
    let fb := scopedIds.isEmpty
    let aids := if fb then get_agenda_ids doc.agendas motive_ids none else scopedIds
    let r := try_to_book_place (penv i) doc.profile_id motive_ids practice aids fuel
    let att : PlaceAttempt := ⟨practice, scopedIds, fb, aids, r.1, r.2⟩
    match r.2 with
    | Outcome.ret true => ([att], Outcome.ret true)
    | Outcome.ret false =>
      let next := bookPlaces doc penv fuel motive_ids (i+1) rest
      (att :: next.1, next.2)
    | o => ([att], o)

/-- `Doctolib.try_to_book`: resolve the vaccine motives on the booking
page; when none match, report failure without trying any place; otherwise
run the per-place loop. -/
def try_to_book (doc : BookingDoc) (penv : Nat → PlaceEnv) (fuel : Nat) :
    List PlaceAttempt × Outcome :=
  let motive_ids := find_motive doc
  if motive_ids.isEmpty then ([], Outcome.ret false)
  else bookPlaces doc penv fuel motive_ids 0 doc.places

/-! The center locator (`Doctolib.find_centers`, lines 197-215) and the
orchestration loop (`Application.main`, lines 428-444). -/

/-- A center record as yielded by `find_centers` (the `search_result`
value): the fields the caller reads. -/
structure Center where
  name_with_title : String
  url : String
deriving DecidableEq, Repr

/-- What the city-search endpoint does on one call: HTTP 404
(`HTTPNotFound`), a server error with its status code (`ServerError`), or
a page listing search-result ids. -/
inductive SearchOutcome where
| notFound
| serverErr (code : Nat)
| ok (ids : List Nat)

/-- The environment of one `find_centers` call: the city-search outcome
and, per search-result id, the detail endpoint's `search_result` record
(`none` when the response lacks that key, which the source silently
skips). -/
structure FindEnv where
  search : SearchOutcome
  result : Nat → Option Center

/-- How a `find_centers` call can fail: `CityNotFound` (raised on 404), a
re-raised non-503 `ServerError`, or a transient-network exception
(timeout / connection failure) escaping it. -/
inductive FindErr where
| cityNotFound (city : String)
| serverErr (code : Nat)
| transientNet
deriving DecidableEq, Repr

/-- The hard-coded extra center appended for the city token `berlin`
(line 215). -/
def berlinFallback : Center :=
  ⟨"Corona Impfzentren - Berlin", "https://www.doctolib.de/institut/berlin/ciz-berlin-berlin"⟩

/-- `Doctolib.find_centers`: on `HTTPNotFound` raise `CityNotFound`; on a
`ServerError` with code 503 terminate the generator empty (yielding
nothing, not even the Berlin fallback); re-raise any other `ServerError`;
otherwise yield the `search_result` record of each listed id that has
one, then, when the city token is `berlin`, yield the hard-coded fallback
center.  (The source is a generator consumed by a `for` loop; its yields
are modelled as the returned list, in yield order.) -/
def find_centers (env : FindEnv) (city : String) : Except FindErr (List Center) :=
  match env.search with
  | SearchOutcome.notFound => Except.error (FindErr.cityNotFound city)
  | SearchOutcome.serverErr code =>
    if code = 503 then Except.ok [] else Except.error (FindErr.serverErr code)
  | SearchOutcome.ok ids =>
    Except.ok (ids.filterMap env.result ++
      (if city = "berlin" then [berlinFallback] else []))

/-- The outcome, as seen by the main loop, of attempting one center: the
`try_to_book` call returned `True`, returned `False`, or a
transient-network exception (`ReadTimeout` / `ReadTimeoutError` /
`ConnectionError`) was raised while processing this center. -/
inductive CRes where
| booked
| noBook
| transient
deriving DecidableEq, Repr

/-- The environment of one sweep: the behaviour of the city search for
this sweep (`fenv`, with `none` standing for a transient-network failure
during center enumeration itself), and the outcome of the center attempt
at each position. -/
structure SweepEnv where
  fenv : Option FindEnv
  tryRes : Nat → CRes

/-- How one sweep over the center list ends. -/
inductive SweepEnd where
| booked
| transient
| exhausted
deriving DecidableEq, Repr

/-- The `for center in docto.find_centers(city)` body: attempt centers in
order from the head of the freshly enumerated list; stop on a booking
(`return 0`) or on a transient-network exception; otherwise run through
the whole list. -/
def runSweep (tryRes : Nat → CRes) : Nat → List Center → List Center × SweepEnd
| _, [] => ([], SweepEnd.exhausted)
| i, c :: rest =>
  match tryRes i with
  | CRes.booked => ([c], SweepEnd.booked)
  | CRes.transient => ([c], SweepEnd.transient)
  | CRes.noBook =>
    let r := runSweep tryRes (i+1) rest
    (c :: r.1, r.2)

/-- The record kept for one iteration of the `while True` loop: which
sweep number it was, the full list `find_centers` enumerated for it, the
prefix of centers actually attempted, how it ended, and whether the
`sleep(1)` at the bottom of the loop ran before the next iteration. -/
structure SweepRecord where
  sweep : Nat
  enumerated : List Center
  attempted : List Center
  stop : SweepEnd
  pausedAfter : Bool
deriving DecidableEq, Repr

/-- How the whole `while True` loop terminates. -/
inductive LoopEnd where
| success
| cityFatal
| serverFatal
| fuelOut
deriving DecidableEq, Repr

/-- The center list a sweep environment enumerates (empty on any
failure). -/
def enumOf (se : SweepEnv) (city : String) : List Center :=
  match se.fenv with
  | none => []
  | some fe =>
    match find_centers fe city with
    | Except.ok l => l
    | Except.error _ => []

/-- `Application.main`'s `while True` loop (lines 428-444), fuelled by the
number of iterations it may still run: each iteration freshly calls
`find_centers(city)` and walks its yields from the beginning; on
`CityNotFound` it returns 1; a non-503 `ServerError` propagates and kills
the process; on a transient-network exception it prints, sleeps and
enters the next iteration, which re-enumerates from scratch; an
unsuccessful full sweep also sleeps and re-enters.  There is no cursor:
nothing of a previous iteration's position survives into the next. -/
def mainLoop (env : Nat → SweepEnv) (city : String) :
    Nat → Nat → List SweepRecord × LoopEnd
| 0, _ => ([], LoopEnd.fuelOut)
| fuel+1, i =>
  match (env i).fenv with
  | none =>
    let next := mainLoop env city fuel (i+1)
    (⟨i, [], [], SweepEnd.transient, true⟩ :: next.1, next.2)
  | some fe =>
    match find_centers fe city with
    | Except.error (FindErr.cityNotFound _) => ([], LoopEnd.cityFatal)
    | Except.error (FindErr.serverErr _) => ([], LoopEnd.serverFatal)
    | Except.error FindErr.transientNet =>
      let next := mainLoop env city fuel (i+1)
      (⟨i, [], [], SweepEnd.transient, true⟩ :: next.1, next.2)
    | Except.ok centers =>
      let s := runSweep (env i).tryRes 0 centers
      match s.2 with
      | SweepEnd.booked => ([⟨i, centers, s.1, SweepEnd.booked, false⟩], LoopEnd.success)
      | SweepEnd.transient =>
        let next := mainLoop env city fuel (i+1)
        (⟨i, centers, s.1, SweepEnd.transient, true⟩ :: next.1, next.2)
      | SweepEnd.exhausted =>
        let next := mainLoop env city fuel (i+1)
        (⟨i, centers, s.1, SweepEnd.exhausted, true⟩ :: next.1, next.2)

/-! Helper lemmas shared by the claim theorems. -/

lemma agendaMatch_iff (a : Agenda) (practice_id : Option Nat) (m : Nat) :
    agendaMatch a practice_id m = true ↔
      m ∈ a.visit_motive_ids ∧ a.booking_disabled = false ∧
        (practice_id = none ∨ practice_id = some 0 ∨
          practice_id = some a.practice_id) := by
  cases practice_id with
  | none => simp [agendaMatch, practiceFalsy]
  | some p =>
    simp only [agendaMatch, practiceFalsy, Bool.and_eq_true, Bool.or_eq_true,
      beq_iff_eq, Bool.not_eq_eq_eq_not, Bool.not_true, List.contains, List.elem_iff,
      decide_eq_true_eq, Option.getD_some, Option.some.injEq]
    constructor
    · rintro ⟨⟨h1, h2⟩, h3⟩
      exact ⟨h1, by simpa using h2, by tauto⟩
    · rintro ⟨h1, h2, h3⟩
      exact ⟨⟨h1, by simpa using h2⟩, by tauto⟩

lemma practice_cond_of (a : Agenda) (pid : Option Nat)
    (hp : pid = none ∨ pid = some 0 ∨ pid = some a.practice_id) :
    (practiceFalsy pid || a.practice_id == pid.getD 0) = true := by
  rcases hp with h | h | h <;> subst h <;> simp [practiceFalsy]

lemma count_map_const {α : Type} (l : List α) (x : String) :
    ((l.map (fun _ => x)).count x) = l.length := by
  induction l with
  | nil => rfl
  | cons a l ih => simp [List.count_cons, ih]

/-! ### The claims -/

/-- C1: for every availability payload, `find_best_slot` scans the
day-entries in response order and returns the last element of the `slots`
array of the first day-entry whose `slots` array is non-empty (and `none`
when no entry has one); it is a pure function of the payload (a Lean
`def`, hence deterministic), and in particular on the payload
`[day with slots [], day with slots [s1, s2]]` it returns `s2`. -/
theorem C1_slot_selector :
    (∀ payload : List Day,
        find_best_slot payload =
          (payload.find? (fun d => !d.slots.isEmpty)).bind
            (fun d => d.slots.getLast?)) ∧
    (∀ s1 s2 : JSlot, find_best_slot [⟨[]⟩, ⟨[s1, s2]⟩] = some s2) := by
  constructor
  · intro payload
    induction payload with
    | nil => rfl
    | cons d rest ih =>
      rcases hl : d.slots with _ | ⟨a, as⟩
      · simp [find_best_slot, hl, List.find?_cons, ih]
      · simp [find_best_slot, hl, List.find?_cons]
  · intro s1 s2
    rfl

/-- C5 (counterexample): with the supplied practice id `0` — falsy in
Python, so the source's `not practice_id` test disables the practice
filter — the enabled agenda `1` with `practice_id = 5` and a matching
motive is still returned, although the claim as stated requires the
agenda's practice id to equal the supplied `0`. -/
theorem C5_counterexample :
    get_agenda_ids [⟨1, [7], false, 5⟩] [7] (some 0) = ["1"] ∧ (5 : Nat) ≠ 0 :=
  ⟨rfl, by decide⟩

/-- C5 (amended): `get_agenda_ids(motive_ids, practice_id)` returns
exactly the identifiers of agendas whose `visit_motive_ids` contains at
least one of the given motive ids and whose `booking_disabled` flag is
false, filtered further — when the supplied practice id is truthy, i.e.
present and non-zero — to agendas whose `practice_id` equals the supplied
one; a supplied practice id of `0` behaves like an absent one and
disables the practice filter. -/
theorem C5_get_agenda_ids (agendas : List Agenda) (motive_ids : List Nat)
    (practice_id : Option Nat) (s : String) :
    s ∈ get_agenda_ids agendas motive_ids practice_id ↔
      ∃ a ∈ agendas, toString a.id = s ∧
        (∃ m ∈ motive_ids, m ∈ a.visit_motive_ids) ∧
        a.booking_disabled = false ∧
        (practice_id = none ∨ practice_id = some 0 ∨
          practice_id = some a.practice_id) := by
  simp only [get_agenda_ids, List.mem_flatMap, List.mem_map, List.mem_filter]
  constructor
  · rintro ⟨a, ha, m, ⟨hm, hmatch⟩, hs⟩
    rw [agendaMatch_iff] at hmatch
    exact ⟨a, ha, hs, ⟨m, hm, hmatch.1⟩, hmatch.2.1, hmatch.2.2⟩
  · rintro ⟨a, ha, hs, ⟨m, hm, hmv⟩, hdis, hp⟩
    exact ⟨a, ha, m, ⟨hm, (agendaMatch_iff _ _ _).mpr ⟨hmv, hdis, hp⟩⟩, hs⟩

/-- C8 (counterexample): on the input `"a  b"` (codepoints
`[97, 32, 32, 98]`), the maximal run of two spaces is replaced by two
hyphens, i.e. `normalize` yields `"a--b"`, not the single hyphen the
claim requires: the source's `re.sub(r'\W', '-', ...)` substitutes each
non-word character individually (the pattern has no `+`). -/
theorem C8_counterexample :
    normalize [97, 32, 32, 98] = [97, 45, 45, 98] ∧
      ([97, 45, 45, 98] : List Nat) ≠ [97, 45, 98] :=
  ⟨rfl, by decide⟩

set_option maxRecDepth 8000 in
lemma nfkdChar_id_of_lt (c : Nat) (hc : c < 192) : nfkdChar c = [c] := by
  have h : ∀ e, e < 192 → nfkdChar e = [e] := by decide
  exact h c hc

lemma isWordChar_lt (c : Nat) (hc : isWordChar c = true) : c < 123 := by
  simp only [isWordChar, Bool.or_eq_true, Bool.and_eq_true, decide_eq_true_eq,
    beq_iff_eq] at hc
  omega

set_option maxRecDepth 8000 in
/-- C8 (amended): `normalize` is idempotent; it acts character by
character (decompose, drop combining marks, rewrite); it lowercases every
word character; it strips the modelled diacritics (e.g. a capital E
acute becomes a plain `e`); and it replaces each single non-word
character by a single hyphen — so a maximal run of k non-word characters
becomes k hyphens, not one. -/
theorem C8_normalize :
    (∀ s : List Nat, normalize (normalize s) = normalize s) ∧
    (∀ s : List Nat, normalize s = s.flatMap normChar) ∧
    (∀ c : Nat, isWordChar c = true → normalize [c] = [lowerChar c]) ∧
    (∀ c : Nat, isWordChar c = false → combiningChar c = false →
      nfkdChar c = [c] → normalize [c] = [45]) ∧
    normalize [0xC9] = [101] := by
  refine ⟨normalize_idem, normalize_eq_flatMap, ?_, ?_, rfl⟩
  · intro c hc
    have hlt : c < 123 := isWordChar_lt c hc
    have h : ∀ e, e < 123 → isWordChar e = true → normalize [e] = [lowerChar e] := by
      decide
    exact h c hlt hc
  · intro c hw hcomb hnf
    rw [normalize_eq_flatMap]
    simp [List.flatMap_cons, normChar, hnf, hcomb, hw]

/-- Witness for C8 (amended): the word character `d` (100) is kept and
lowercased (it already is lowercase), and the single `!` (33) becomes a
single hyphen. -/
theorem C8_normalize_witness :
    normalize [100] = [lowerChar 100] ∧ normalize [33] = [45] :=
  ⟨C8_normalize.2.2.1 100 (by decide),
   C8_normalize.2.2.2.1 33 (by decide) (by decide) (by decide)⟩

/-- A concrete booking-page document whose single enabled agenda (id 5,
practice 1) carries both vaccine motive ids 7 and 8, so the agenda
lookup returns its id twice. -/
def dupDoc : BookingDoc :=
  ⟨9, [⟨7, "Impfung Pfizer 1"⟩, ⟨8, "Impfung Pfizer 2"⟩], [⟨"Platz 1", [1]⟩],
    [⟨5, [7, 8], false, 1⟩]⟩

/-- A concrete response environment under which the whole booking
transaction succeeds: one availability day with one well-formed slot, an
error-free first creation, one second-shot slot, an error-free update
(appointment id 42), no required custom fields, and `confirmed = true`
on the final fetch. -/
def dupEnv : PlaceEnv :=
  ⟨"2021-05-01",
   fun _ => ⟨none, [⟨[JSlot.obj "2021-05-02T10:00"
     [⟨"2021-05-02T10:00"⟩, ⟨"2021-06-12T10:00"⟩]]⟩]⟩,
   ⟨none, 0⟩,
   ⟨none, [⟨[JSlot.obj "2021-06-12T11:00" []]⟩]⟩,
   ⟨none, 42⟩,
   [],
   fun _ => "",
   none,
   true,
   ⟨3, "Erika", "Musterfrau"⟩⟩

/-- C10: `get_agenda_ids` can return the same agenda id several times: a
single enabled, practice-matching agenda contributes `str(id)` once per
given motive id found in its `visit_motive_ids` (so k > 1 matching motive
ids give k copies), concretely agenda 5 with motives `[7, 8]` yields
`["5", "5"]`, and in the full booking flow these duplicates reach the
hyphen-joined `agenda_ids` string `"5-5"` of both the availability and
the appointment-creation requests. -/
theorem C10_duplicate_agenda_ids :
    (∀ (a : Agenda) (motive_ids : List Nat) (practice_id : Option Nat),
        a.booking_disabled = false →
        (practice_id = none ∨ practice_id = some 0 ∨
          practice_id = some a.practice_id) →
        get_agenda_ids [a] motive_ids practice_id =
          (motive_ids.filter (fun m => a.visit_motive_ids.contains m)).map
            (fun _ => toString a.id) ∧
        (get_agenda_ids [a] motive_ids practice_id).count (toString a.id) =
          (motive_ids.filter (fun m => a.visit_motive_ids.contains m)).length) ∧
    get_agenda_ids [⟨5, [7, 8], false, 1⟩] [7, 8] (some 1) = ["5", "5"] ∧
    (try_to_book dupDoc (fun _ => dupEnv) 1).1.flatMap (fun att => att.reqs) =
      [Req.avail "2021-05-01" "7-8" "5-5" 1,
       Req.create "5-5" 9 "2021-05-02T10:00" "7-8" [1] none,
       Req.secondAvail "2021-06-12" "7-8" "5-5" "2021-05-02T10:00" 1,
       Req.create "5-5" 9 "2021-05-02T10:00" "7-8" [1] (some "2021-06-12T11:00"),
       Req.editAnon 42, Req.editPatient 42 3, Req.finalize 42 [],
       Req.fetchAppt 42] := by
  refine ⟨?_, rfl, rfl⟩
  intro a motive_ids practice_id hdis hp
  have hfil : motive_ids.filter (agendaMatch a practice_id) =
      motive_ids.filter (fun m => a.visit_motive_ids.contains m) := by
    apply List.filter_congr
    intro m _
    simp [agendaMatch, hdis, practice_cond_of a practice_id hp]
  have heq : get_agenda_ids [a] motive_ids practice_id =
      (motive_ids.filter (fun m => a.visit_motive_ids.contains m)).map
        (fun _ => toString a.id) := by
    simp [get_agenda_ids, hfil]
  refine ⟨heq, ?_⟩
  rw [heq, count_map_const]

/-- Witness for C10: the general duplication law applied to agenda 5 with
motive ids `[7, 8]` and practice id 1. -/
theorem C10_duplicate_agenda_ids_witness :
    get_agenda_ids [⟨5, [7, 8], false, 1⟩] [7, 8] (some 1) =
      (([7, 8] : List Nat).filter
        (fun m => (Agenda.mk 5 [7, 8] false 1).visit_motive_ids.contains m)).map
        (fun _ => toString (5 : Nat)) ∧
    (get_agenda_ids [⟨5, [7, 8], false, 1⟩] [7, 8] (some 1)).count (toString (5 : Nat)) =
      (([7, 8] : List Nat).filter
        (fun m => (Agenda.mk 5 [7, 8] false 1).visit_motive_ids.contains m)).length :=
  C10_duplicate_agenda_ids.1 ⟨5, [7, 8], false, 1⟩ [7, 8] (some 1) rfl
    (Or.inr (Or.inr rfl))

/-- C9: for the city token `berlin`, whenever the city search succeeds
(with any list of search-result ids, including none), `find_centers`
yields the hard-coded fallback center after the search results; in
particular, with an empty search result it still yields exactly the
fallback center. -/
theorem C9_berlin_fallback (env : FindEnv) (ids : List Nat)
    (h : env.search = SearchOutcome.ok ids) :
    find_centers env "berlin" =
      Except.ok (ids.filterMap env.result ++ [berlinFallback]) ∧
    (∀ l, find_centers env "berlin" = Except.ok l → berlinFallback ∈ l) ∧
    (ids.filterMap env.result = [] →
      find_centers env "berlin" = Except.ok [berlinFallback]) := by
  have he : find_centers env "berlin" =
      Except.ok (ids.filterMap env.result ++ [berlinFallback]) := by
    simp [find_centers, h]
  refine ⟨he, ?_, ?_⟩
  · intro l hl
    rw [he] at hl
    cases hl
    simp
  · intro hempty
    rw [he, hempty]
    rfl

/-- Witness for C9: a search environment returning no results for
`berlin` still yields the hard-coded fallback center. -/
theorem C9_berlin_fallback_witness :
    find_centers ⟨SearchOutcome.ok [], fun _ => none⟩ "berlin" =
      Except.ok (([] : List Nat).filterMap (fun _ => none) ++ [berlinFallback]) :=
  (C9_berlin_fallback ⟨SearchOutcome.ok [], fun _ => none⟩ [] rfl).1

lemma poll_reqs (env : PlaceEnv) (jm ja : String) (practice : Nat) :
    ∀ (fuel : Nat) (date : String), ∀ r ∈ (poll env jm ja practice fuel date).1,
      ∃ d0, r = Req.avail d0 jm ja practice := by
  intro fuel
  induction fuel with
  | zero => intro date r hr; simp [poll] at hr
  | succ fuel ih =>
    intro date r hr
    simp only [poll] at hr
    cases hnext : (env.avail date).next_slot with
    | none =>
      rw [hnext] at hr
      simp only [List.mem_singleton] at hr
      exact ⟨date, hr⟩
    | some d =>
      rw [hnext] at hr
      simp only [List.mem_cons] at hr
      rcases hr with h | h
      · exact ⟨date, h⟩
      · exact ih d r h

lemma create_mem_bap (env : PlaceEnv) (profile_id : Nat) (motive_ids : List Nat)
    (practice_id : Nat) (agenda_ids : List String) (resp : AvailResp)
    (a : String) (pid0 : Nat) (sd0 : String) (m : String) (prs : List Nat)
    (ss : Option String)
    (h : Req.create a pid0 sd0 m prs ss ∈
      (book_after_poll env profile_id motive_ids practice_id agenda_ids resp).1) :
    a = "-".intercalate agenda_ids ∧ pid0 = profile_id ∧
      m = joinIds motive_ids ∧ prs = [practice_id] := by
  unfold book_after_poll at h
  repeat' split at h
  all_goals simp_all
  all_goals tauto

lemma secondAvail_mem_bap (env : PlaceEnv) (profile_id : Nat) (motive_ids : List Nat)
    (practice_id : Nat) (agenda_ids : List String) (resp : AvailResp)
    (d m a fs : String) (p2 : Nat)
    (h : Req.secondAvail d m a fs p2 ∈
      (book_after_poll env profile_id motive_ids practice_id agenda_ids resp).1) :
    m = joinIds motive_ids ∧ a = "-".intercalate agenda_ids ∧ p2 = practice_id ∧
      env.first_create.error = none ∧
      ∃ post, (book_after_poll env profile_id motive_ids practice_id agenda_ids
          resp).1 =
        Req.create ("-".intercalate agenda_ids) profile_id fs (joinIds motive_ids)
            [practice_id] none ::
          Req.secondAvail d m a fs p2 :: post := by
  unfold book_after_poll at h ⊢
  repeat' split at h
  all_goals simp_all

/-- C2: after a successful first-dose creation (error-free response), if
the second-dose availability query finds no slot, `try_to_book_place`
returns `False` (\"no second shot\") immediately: the complete request
trace of the run ends with that second-dose query, so no cancellation —
indeed no request of any kind, and `Req` enumerates every endpoint the
transaction can reach, none of which is a cancellation — is issued for
the already-created first-dose appointment, which is left in place. -/
theorem C2_no_rollback (env : PlaceEnv) (profile_id : Nat) (motive_ids : List Nat)
    (practice_id : Nat) (agenda_ids : List String) (fuel : Nat)
    (tr : List Req) (resp : AvailResp) (sd : String) (steps : List JStep) (st : JStep)
    (hp : poll env (joinIds motive_ids) ("-".intercalate agenda_ids) practice_id fuel
      env.today = (tr, some resp))
    (hne : resp.availabilities.length ≠ 0)
    (hslot : find_best_slot resp.availabilities = some (JSlot.obj sd steps))
    (hok : env.first_create.error = none)
    (hst : steps.get? 1 = some st)
    (hnone : find_best_slot env.second_avail.availabilities = none) :
    try_to_book_place env profile_id motive_ids practice_id agenda_ids fuel =
      (tr ++ [Req.create ("-".intercalate agenda_ids) profile_id sd
          (joinIds motive_ids) [practice_id] none,
        Req.secondAvail (dateOnly st.start_date) (joinIds motive_ids)
          ("-".intercalate agenda_ids) sd practice_id],
       Outcome.ret false) := by
  simp only [try_to_book_place, book_after_poll, hp, hslot, hok, hst, hnone,
    if_neg hne]

/-- A concrete environment identical to `dupEnv` except that the
second-shot availability response has no day-entries, so no second slot
exists. -/
def noSecondEnv : PlaceEnv :=
  ⟨"2021-05-01",
   fun _ => ⟨none, [⟨[JSlot.obj "2021-05-02T10:00"
     [⟨"2021-05-02T10:00"⟩, ⟨"2021-06-12T10:00"⟩]]⟩]⟩,
   ⟨none, 0⟩,
   ⟨none, []⟩,
   ⟨none, 42⟩,
   [],
   fun _ => "",
   none,
   true,
   ⟨3, "Erika", "Musterfrau"⟩⟩

/-- Witness for C2: under `noSecondEnv` the run issues exactly one
availability query, one creation and one second-dose query, then stops
with `False`. -/
theorem C2_no_rollback_witness :
    try_to_book_place noSecondEnv 9 [7, 8] 1 ["5", "5"] 1 =
      ([Req.avail "2021-05-01" "7-8" "5-5" 1,
        Req.create "5-5" 9 "2021-05-02T10:00" "7-8" [1] none,
        Req.secondAvail "2021-06-12" "7-8" "5-5" "2021-05-02T10:00" 1],
       Outcome.ret false) := by
  have h := C2_no_rollback noSecondEnv 9 [7, 8] 1 ["5", "5"] 1
    [Req.avail "2021-05-01" "7-8" "5-5" 1]
    ⟨none, [⟨[JSlot.obj "2021-05-02T10:00"
      [⟨"2021-05-02T10:00"⟩, ⟨"2021-06-12T10:00"⟩]]⟩]⟩
    "2021-05-02T10:00" [⟨"2021-05-02T10:00"⟩, ⟨"2021-06-12T10:00"⟩]
    ⟨"2021-06-12T10:00"⟩ rfl (by decide) rfl rfl rfl rfl
  exact h

/-- C4: within one `try_to_book_place` run, every appointment-creation
request — the first-dose create and the second-dose update alike —
carries the same joined agenda-id string `'-'.join(agenda_ids)` and the
same joined motive-id string `'-'.join(motive_ids)` (and the same profile
and practice ids); and every second-dose availability query in the trace
carries `first_slot` equal to the `start_date` of the first-dose creation
request present in the same trace. -/
theorem C4_payload_consistency (env : PlaceEnv) (profile_id : Nat)
    (motive_ids : List Nat) (practice_id : Nat) (agenda_ids : List String)
    (fuel : Nat) :
    (∀ (a : String) (pid0 : Nat) (sd0 m : String) (prs : List Nat)
        (ss : Option String),
      Req.create a pid0 sd0 m prs ss ∈
          (try_to_book_place env profile_id motive_ids practice_id agenda_ids
            fuel).1 →
        a = "-".intercalate agenda_ids ∧ m = joinIds motive_ids ∧
          pid0 = profile_id ∧ prs = [practice_id]) ∧
    (∀ (d m a fs : String) (p2 : Nat),
      Req.secondAvail d m a fs p2 ∈
          (try_to_book_place env profile_id motive_ids practice_id agenda_ids
            fuel).1 →
        m = joinIds motive_ids ∧ a = "-".intercalate agenda_ids ∧
          Req.create ("-".intercalate agenda_ids) profile_id fs
              (joinIds motive_ids) [practice_id] none ∈
            (try_to_book_place env profile_id motive_ids practice_id agenda_ids
              fuel).1) := by
  constructor
  · intro a pid0 sd0 m prs ss h
    rcases hp : (poll env (joinIds motive_ids) ("-".intercalate agenda_ids)
        practice_id fuel env.today).2 with _ | resp
    · simp only [try_to_book_place, hp] at h
      obtain ⟨d0, hd0⟩ := poll_reqs env _ _ _ fuel env.today _ h
      exact absurd hd0 (by simp)
    · simp only [try_to_book_place, hp, List.mem_append] at h
      rcases h with h | h
      · obtain ⟨d0, hd0⟩ := poll_reqs env _ _ _ fuel env.today _ h
        exact absurd hd0 (by simp)
      · obtain ⟨h1, h2, h3, h4⟩ := create_mem_bap env profile_id motive_ids
          practice_id agenda_ids resp a pid0 sd0 m prs ss h
        exact ⟨h1, h3, h2, h4⟩
  · intro d m a fs p2 h
    rcases hp : (poll env (joinIds motive_ids) ("-".intercalate agenda_ids)
        practice_id fuel env.today).2 with _ | resp
    · simp only [try_to_book_place, hp] at h
      obtain ⟨d0, hd0⟩ := poll_reqs env _ _ _ fuel env.today _ h
      exact absurd hd0 (by simp)
    · simp only [try_to_book_place, hp, List.mem_append] at h ⊢
      rcases h with h | h
      · obtain ⟨d0, hd0⟩ := poll_reqs env _ _ _ fuel env.today _ h
        exact absurd hd0 (by simp)
      · obtain ⟨h1, h2, _, _, post, hpost⟩ := secondAvail_mem_bap env profile_id
          motive_ids practice_id agenda_ids resp d m a fs p2 h
        refine ⟨h1, h2, Or.inr ?_⟩
        rw [hpost]
        simp

/-- Witness for C4: in the fully successful concrete run under `dupEnv`,
the second-dose update request carries the same joined strings as the
first-dose create, and the second-dose query's `first_slot` is the booked
start date. -/
theorem C4_payload_consistency_witness :
    (("5-5" : String) = "-".intercalate ["5", "5"] ∧
      ("7-8" : String) = joinIds [7, 8] ∧ (9 : Nat) = 9 ∧ ([1] : List Nat) = [1]) ∧
    (("7-8" : String) = joinIds [7, 8] ∧
      ("5-5" : String) = "-".intercalate ["5", "5"] ∧
      Req.create ("-".intercalate ["5", "5"]) 9 "2021-05-02T10:00" (joinIds [7, 8])
          [1] none ∈
        (try_to_book_place dupEnv 9 [7, 8] 1 ["5", "5"] 1).1) :=
  ⟨(C4_payload_consistency dupEnv 9 [7, 8] 1 ["5", "5"] 1).1
    "5-5" 9 "2021-05-02T10:00" "7-8" [1] (some "2021-06-12T11:00") (by decide),
   (C4_payload_consistency dupEnv 9 [7, 8] 1 ["5", "5"] 1).2
    "2021-06-12" "7-8" "5-5" "2021-05-02T10:00" 1 (by decide)⟩

/-- A concrete environment identical to `dupEnv` except that the
first-dose creation response carries an `error` key (slot already
taken). -/
def slotTakenEnv : PlaceEnv :=
  ⟨"2021-05-01",
   fun _ => ⟨none, [⟨[JSlot.obj "2021-05-02T10:00"
     [⟨"2021-05-02T10:00"⟩, ⟨"2021-06-12T10:00"⟩]]⟩]⟩,
   ⟨some "slot not available", 0⟩,
   ⟨none, [⟨[JSlot.obj "2021-06-12T11:00" []]⟩]⟩,
   ⟨none, 42⟩,
   [],
   fun _ => "",
   none,
   true,
   ⟨3, "Erika", "Musterfrau"⟩⟩

/-- C3: (a) in every run of the booking transaction, a second-dose
availability query appears in the trace only when the first-dose creation
response carried no error, and then strictly after a first-dose creation
request; (b) when the first-dose creation response signals an error, the
transaction returns `False` for that place with the creation as its very
last request — no second-dose request, no second creation attempt for
the same slot; (c) the per-place loop of `try_to_book` then falls through
to the next place. -/
theorem C3_error_handling :
    (∀ (env : PlaceEnv) (profile_id : Nat) (motive_ids : List Nat)
        (practice_id : Nat) (agenda_ids : List String) (fuel : Nat)
        (d m a fs : String) (p2 : Nat),
      Req.secondAvail d m a fs p2 ∈
          (try_to_book_place env profile_id motive_ids practice_id agenda_ids
            fuel).1 →
        env.first_create.error = none ∧
          ∃ pre post,
            (try_to_book_place env profile_id motive_ids practice_id agenda_ids
                fuel).1 =
              pre ++ Req.secondAvail d m a fs p2 :: post ∧
            Req.create ("-".intercalate agenda_ids) profile_id fs
                (joinIds motive_ids) [practice_id] none ∈ pre) ∧
    (∀ (env : PlaceEnv) (profile_id : Nat) (motive_ids : List Nat)
        (practice_id : Nat) (agenda_ids : List String) (fuel : Nat)
        (tr : List Req) (resp : AvailResp) (sd : String) (steps : List JStep)
        (msg : String),
      poll env (joinIds motive_ids) ("-".intercalate agenda_ids) practice_id fuel
          env.today = (tr, some resp) →
        resp.availabilities.length ≠ 0 →
        find_best_slot resp.availabilities = some (JSlot.obj sd steps) →
        env.first_create.error = some msg →
        try_to_book_place env profile_id motive_ids practice_id agenda_ids fuel =
          (tr ++ [Req.create ("-".intercalate agenda_ids) profile_id sd
              (joinIds motive_ids) [practice_id] none],
           Outcome.ret false)) ∧
    (∀ (doc : BookingDoc) (penv : Nat → PlaceEnv) (fuel : Nat) (mids : List Nat)
        (i : Nat) (pl : Place) (rest : List Place) (practice : Nat)
        (aids : List String),
      pl.practice_ids.head? = some practice →
        aids = (if (get_agenda_ids doc.agendas mids (some practice)).isEmpty
          then get_agenda_ids doc.agendas mids none
          else get_agenda_ids doc.agendas mids (some practice)) →
        (try_to_book_place (penv i) doc.profile_id mids practice aids fuel).2 =
          Outcome.ret false →
        bookPlaces doc penv fuel mids i (pl :: rest) =
          (⟨practice, get_agenda_ids doc.agendas mids (some practice),
            (get_agenda_ids doc.agendas mids (some practice)).isEmpty, aids,
            (try_to_book_place (penv i) doc.profile_id mids practice aids fuel).1,
            Outcome.ret false⟩ :: (bookPlaces doc penv fuel mids (i + 1) rest).1,
           (bookPlaces doc penv fuel mids (i + 1) rest).2)) := by
  refine ⟨?_, ?_, ?_⟩
  · intro env profile_id motive_ids practice_id agenda_ids fuel d m a fs p2 h
    rcases hp : (poll env (joinIds motive_ids) ("-".intercalate agenda_ids)
        practice_id fuel env.today).2 with _ | resp
    · simp only [try_to_book_place, hp] at h
      obtain ⟨d0, hd0⟩ := poll_reqs env _ _ _ fuel env.today _ h
      exact absurd hd0 (by simp)
    · simp only [try_to_book_place, hp, List.mem_append] at h ⊢
      rcases h with h | h
      · obtain ⟨d0, hd0⟩ := poll_reqs env _ _ _ fuel env.today _ h
        exact absurd hd0 (by simp)
      · obtain ⟨h1, h2, h3, herr, post, hpost⟩ := secondAvail_mem_bap env
          profile_id motive_ids practice_id agenda_ids resp d m a fs p2 h
        refine ⟨herr, (poll env (joinIds motive_ids) ("-".intercalate agenda_ids)
          practice_id fuel env.today).1 ++
            [Req.create ("-".intercalate agenda_ids) profile_id fs
              (joinIds motive_ids) [practice_id] none], post, ?_, by simp⟩
        rw [hpost]
        simp
  · intro env profile_id motive_ids practice_id agenda_ids fuel tr resp sd steps
      msg hp hne hslot herr
    simp only [try_to_book_place, book_after_poll, hp, hslot, herr, if_neg hne]
  · intro doc penv fuel mids i pl rest practice aids hhead haids hout
    subst haids
    simp only [bookPlaces, hhead, hout]

/-- Witness for C3: part (b) applied to a concrete environment whose
first-dose creation response signals an error, and part (c) applied to
the resulting fall-through at the first place of a two-place document. -/
theorem C3_error_handling_witness :
    try_to_book_place slotTakenEnv 9 [7, 8] 1 ["5", "5"] 1 =
      ([Req.avail "2021-05-01" "7-8" "5-5" 1,
        Req.create "5-5" 9 "2021-05-02T10:00" "7-8" [1] none],
       Outcome.ret false) ∧
    bookPlaces dupDoc (fun _ => slotTakenEnv) 1 [7, 8] 0 [⟨"Platz 1", [1]⟩, ⟨"Platz 2", [1]⟩] =
      (⟨1, get_agenda_ids dupDoc.agendas [7, 8] (some 1),
        (get_agenda_ids dupDoc.agendas [7, 8] (some 1)).isEmpty,
        get_agenda_ids dupDoc.agendas [7, 8] (some 1),
        (try_to_book_place slotTakenEnv 9 [7, 8] 1
          (get_agenda_ids dupDoc.agendas [7, 8] (some 1)) 1).1,
        Outcome.ret false⟩ ::
          (bookPlaces dupDoc (fun _ => slotTakenEnv) 1 [7, 8] 1 [⟨"Platz 2", [1]⟩]).1,
       (bookPlaces dupDoc (fun _ => slotTakenEnv) 1 [7, 8] 1 [⟨"Platz 2", [1]⟩]).2) ∧
    (dupEnv.first_create.error = none ∧
      ∃ pre post,
        (try_to_book_place dupEnv 9 [7, 8] 1 ["5", "5"] 1).1 =
          pre ++ Req.secondAvail "2021-06-12" "7-8" "5-5" "2021-05-02T10:00" 1 ::
            post ∧
        Req.create ("-".intercalate ["5", "5"]) 9 "2021-05-02T10:00"
            (joinIds [7, 8]) [1] none ∈ pre) := by
  refine ⟨?_, ?_, ?_⟩
  · exact C3_error_handling.2.1 slotTakenEnv 9 [7, 8] 1 ["5", "5"] 1
      [Req.avail "2021-05-01" "7-8" "5-5" 1]
      ⟨none, [⟨[JSlot.obj "2021-05-02T10:00"
        [⟨"2021-05-02T10:00"⟩, ⟨"2021-06-12T10:00"⟩]]⟩]⟩
      "2021-05-02T10:00" [⟨"2021-05-02T10:00"⟩, ⟨"2021-06-12T10:00"⟩]
      "slot not available" rfl (by decide) rfl rfl
  · exact C3_error_handling.2.2 dupDoc (fun _ => slotTakenEnv) 1 [7, 8] 0
      ⟨"Platz 1", [1]⟩ [⟨"Platz 2", [1]⟩] 1
      (get_agenda_ids dupDoc.agendas [7, 8] (some 1)) rfl (by decide) (by decide)
  · exact C3_error_handling.1 dupEnv 9 [7, 8] 1 ["5", "5"] 1
      "2021-06-12" "7-8" "5-5" "2021-05-02T10:00" 1 (by decide)

lemma bookPlaces_att (doc : BookingDoc) (penv : Nat → PlaceEnv) (fuel : Nat)
    (mids : List Nat) :
    ∀ (places : List Place) (i : Nat),
      ∀ att ∈ (bookPlaces doc penv fuel mids i places).1,
        att.scopedIds = get_agenda_ids doc.agendas mids (some att.practice) ∧
        (att.fallback = true ↔ att.scopedIds = []) ∧
        att.agenda_ids = (if att.scopedIds = []
          then get_agenda_ids doc.agendas mids none else att.scopedIds) := by
  intro places
  induction places with
  | nil => intro i att h; simp [bookPlaces] at h
  | cons pl rest ih =>
    intro i att h
    simp only [bookPlaces] at h
    split at h
    · simp at h
    · rename_i practice hh
      have hhead : ∀ o : Outcome,
          att = ⟨practice, get_agenda_ids doc.agendas mids (some practice),
            (get_agenda_ids doc.agendas mids (some practice)).isEmpty,
            (if (get_agenda_ids doc.agendas mids (some practice)).isEmpty
              then get_agenda_ids doc.agendas mids none
              else get_agenda_ids doc.agendas mids (some practice)),
            (try_to_book_place (penv i) doc.profile_id mids practice
              (if (get_agenda_ids doc.agendas mids (some practice)).isEmpty
                then get_agenda_ids doc.agendas mids none
                else get_agenda_ids doc.agendas mids (some practice)) fuel).1,
            o⟩ →
          att.scopedIds = get_agenda_ids doc.agendas mids (some att.practice) ∧
          (att.fallback = true ↔ att.scopedIds = []) ∧
          att.agenda_ids = (if att.scopedIds = []
            then get_agenda_ids doc.agendas mids none else att.scopedIds) := by
        intro o hatt
        subst hatt
        refine ⟨rfl, List.isEmpty_iff, ?_⟩
        by_cases hsc : get_agenda_ids doc.agendas mids (some practice) = []
        · simp [hsc]
        · have : (get_agenda_ids doc.agendas mids (some practice)).isEmpty = false := by
            simp [List.isEmpty_iff, hsc]
          simp [this, hsc]
      split at h
      · rw [List.mem_singleton] at h
        exact hhead _ h
      · rcases List.mem_cons.mp h with h | h
        · exact hhead _ h
        · exact ih (i + 1) att h
      · rw [List.mem_singleton] at h
        exact hhead _ h

/-- C6: for every place tried by `try_to_book`, the practice-scoped
agenda lookup result is recorded; the unscoped (no practice filter)
lookup is performed exactly when the scoped result is empty; and the
agenda ids actually used for the place are the unscoped result in that
case and the scoped result otherwise. -/
theorem C6_unscoped_fallback (doc : BookingDoc) (penv : Nat → PlaceEnv)
    (fuel : Nat) :
    ∀ att ∈ (try_to_book doc penv fuel).1,
      att.scopedIds = get_agenda_ids doc.agendas (find_motive doc)
        (some att.practice) ∧
      (att.fallback = true ↔ att.scopedIds = []) ∧
      att.agenda_ids = (if att.scopedIds = []
        then get_agenda_ids doc.agendas (find_motive doc) none
        else att.scopedIds) := by
  intro att h
  unfold try_to_book at h
  by_cases hm : (find_motive doc).isEmpty
  · rw [if_pos hm] at h
    simp at h
  · rw [if_neg hm] at h
    exact bookPlaces_att doc penv fuel (find_motive doc) doc.places 0 att h

/-- A concrete booking-page document whose single place names practice 2
while its single agenda belongs to practice 1, so the practice-scoped
lookup is empty and the unscoped fallback finds the agenda. -/
def fbDoc : BookingDoc :=
  ⟨9, [⟨7, "Impfung Pfizer 1"⟩], [⟨"Platz 1", [2]⟩], [⟨5, [7], false, 1⟩]⟩

/-- The place attempt produced by `try_to_book` on `fbDoc` under
`dupEnv`: empty scoped lookup, fallback exercised, unscoped agenda id
used. -/
def fbAttempt : PlaceAttempt :=
  ⟨2, [], true, ["5"],
   [Req.avail "2021-05-01" "7" "5" 2,
    Req.create "5" 9 "2021-05-02T10:00" "7" [2] none,
    Req.secondAvail "2021-06-12" "7" "5" "2021-05-02T10:00" 2,
    Req.create "5" 9 "2021-05-02T10:00" "7" [2] (some "2021-06-12T11:00"),
    Req.editAnon 42, Req.editPatient 42 3, Req.finalize 42 [],
    Req.fetchAppt 42],
   Outcome.ret true⟩

/-- Witness for C6: on `fbDoc` the recorded attempt has an empty scoped
result, the fallback flag set, and uses the unscoped lookup's result. -/
theorem C6_unscoped_fallback_witness :
    fbAttempt.scopedIds = get_agenda_ids fbDoc.agendas (find_motive fbDoc)
      (some fbAttempt.practice) ∧
    (fbAttempt.fallback = true ↔ fbAttempt.scopedIds = []) ∧
    fbAttempt.agenda_ids = (if fbAttempt.scopedIds = []
      then get_agenda_ids fbDoc.agendas (find_motive fbDoc) none
      else fbAttempt.scopedIds) :=
  C6_unscoped_fallback fbDoc (fun _ => dupEnv) 1 fbAttempt (by decide)

lemma runSweep_prefix (tryRes : Nat → CRes) :
    ∀ (centers : List Center) (i : Nat),
      ∃ t, (runSweep tryRes i centers).1 ++ t = centers := by
  intro centers
  induction centers with
  | nil => intro i; exact ⟨[], rfl⟩
  | cons c rest ih =>
    intro i
    simp only [runSweep]
    cases tryRes i with
    | booked => exact ⟨rest, rfl⟩
    | transient => exact ⟨rest, rfl⟩
    | noBook =>
      obtain ⟨t, ht⟩ := ih (i + 1)
      exact ⟨t, by simp [ht]⟩

lemma mainLoop_sweeps (env : Nat → SweepEnv) (city : String) :
    ∀ (fuel start : Nat),
      (mainLoop env city fuel start).1.map (fun r => r.sweep) =
        List.range' start (mainLoop env city fuel start).1.length := by
  intro fuel
  induction fuel with
  | zero => intro start; rfl
  | succ fuel ih =>
    intro start
    simp only [mainLoop]
    split
    · simp [List.range'_succ, ih (start + 1)]
    · split
      · rfl
      · rfl
      · simp [List.range'_succ, ih (start + 1)]
      · split
        · simp [List.range']
        · simp [List.range'_succ, ih (start + 1)]
        · simp [List.range'_succ, ih (start + 1)]

lemma mainLoop_enum (env : Nat → SweepEnv) (city : String) :
    ∀ (fuel start : Nat), ∀ r ∈ (mainLoop env city fuel start).1,
      r.enumerated = enumOf (env r.sweep) city ∧
        ∃ t, r.attempted ++ t = r.enumerated := by
  intro fuel
  induction fuel with
  | zero => intro start r h; simp [mainLoop] at h
  | succ fuel ih =>
    intro start r h
    simp only [mainLoop] at h
    split at h
    · rename_i hfe
      rcases List.mem_cons.mp h with h | h
      · subst h
        exact ⟨by simp [enumOf, hfe], [], rfl⟩
      · exact ih (start + 1) r h
    · rename_i fe hfe
      split at h
      · simp at h
      · simp at h
      · rename_i hfc
        rcases List.mem_cons.mp h with h | h
        · subst h
          exact ⟨by simp [enumOf, hfe, hfc], [], rfl⟩
        · exact ih (start + 1) r h
      · rename_i centers hfc
        split at h
        · rw [List.mem_singleton] at h
          subst h
          exact ⟨by simp [enumOf, hfe, hfc], runSweep_prefix (env start).tryRes
            centers 0⟩
        · rcases List.mem_cons.mp h with h | h
          · subst h
            exact ⟨by simp [enumOf, hfe, hfc], runSweep_prefix (env start).tryRes
              centers 0⟩
          · exact ih (start + 1) r h
        · rcases List.mem_cons.mp h with h | h
          · subst h
            exact ⟨by simp [enumOf, hfe, hfc], runSweep_prefix (env start).tryRes
              centers 0⟩
          · exact ih (start + 1) r h

lemma mainLoop_pause (env : Nat → SweepEnv) (city : String) :
    ∀ (fuel start : Nat), ∀ r ∈ (mainLoop env city fuel start).1,
      r.stop = SweepEnd.transient → r.pausedAfter = true := by
  intro fuel
  induction fuel with
  | zero => intro start r h; simp [mainLoop] at h
  | succ fuel ih =>
    intro start r h hstop
    simp only [mainLoop] at h
    split at h
    · rcases List.mem_cons.mp h with h | h
      · subst h; rfl
      · exact ih (start + 1) r h hstop
    · split at h
      · simp at h
      · simp at h
      · rcases List.mem_cons.mp h with h | h
        · subst h; rfl
        · exact ih (start + 1) r h hstop
      · split at h
        · rw [List.mem_singleton] at h
          subst h
          exact absurd hstop (by simp)
        · rcases List.mem_cons.mp h with h | h
          · subst h; rfl
          · exact ih (start + 1) r h hstop
        · rcases List.mem_cons.mp h with h | h
          · subst h; rfl
          · exact ih (start + 1) r h hstop

lemma mainLoop_nil_end (env : Nat → SweepEnv) (city : String) :
    ∀ (fuel start : Nat), (mainLoop env city fuel start).1 = [] →
      (mainLoop env city fuel start).2 = LoopEnd.fuelOut ∨
        (mainLoop env city fuel start).2 = LoopEnd.cityFatal ∨
        (mainLoop env city fuel start).2 = LoopEnd.serverFatal := by
  intro fuel start h
  cases fuel with
  | zero => exact Or.inl rfl
  | succ fuel =>
    simp only [mainLoop] at h ⊢
    split at h
    · simp at h
    · split at h
      · exact Or.inr (Or.inl rfl)
      · exact Or.inr (Or.inr rfl)
      · simp at h
      · split at h
        · simp at h
        · simp at h
        · simp at h

lemma mainLoop_head_sweep (env : Nat → SweepEnv) (city : String) :
    ∀ (fuel start : Nat) (r : SweepRecord) (rest : List SweepRecord),
      (mainLoop env city fuel start).1 = r :: rest → r.sweep = start := by
  intro fuel start r rest h
  cases fuel with
  | zero => simp [mainLoop] at h
  | succ fuel =>
    simp only [mainLoop] at h
    split at h
    · exact (List.cons.injEq _ _ _ _ ▸ h).1 ▸ rfl
    · split at h
      · simp at h
      · simp at h
      · exact (List.cons.injEq _ _ _ _ ▸ h).1 ▸ rfl
      · split at h
        · exact (List.cons.injEq _ _ _ _ ▸ h).1 ▸ rfl
        · exact (List.cons.injEq _ _ _ _ ▸ h).1 ▸ rfl
        · exact (List.cons.injEq _ _ _ _ ▸ h).1 ▸ rfl

lemma mainLoop_continue (env : Nat → SweepEnv) (city : String) :
    ∀ (fuel start : Nat), ∀ r ∈ (mainLoop env city fuel start).1,
      r.stop = SweepEnd.transient →
        (∃ r2 ∈ (mainLoop env city fuel start).1, r2.sweep = r.sweep + 1) ∨
          (mainLoop env city fuel start).2 = LoopEnd.fuelOut ∨
          (mainLoop env city fuel start).2 = LoopEnd.cityFatal ∨
          (mainLoop env city fuel start).2 = LoopEnd.serverFatal := by
  have key : ∀ (fuel start : Nat),
      (∀ r ∈ (mainLoop env city fuel (start + 1)).1,
        r.stop = SweepEnd.transient →
          (∃ r2 ∈ (mainLoop env city fuel (start + 1)).1, r2.sweep = r.sweep + 1) ∨
            (mainLoop env city fuel (start + 1)).2 = LoopEnd.fuelOut ∨
            (mainLoop env city fuel (start + 1)).2 = LoopEnd.cityFatal ∨
            (mainLoop env city fuel (start + 1)).2 = LoopEnd.serverFatal) →
      ∀ (r : SweepRecord), r.sweep = start →
        (∃ r2 ∈ r :: (mainLoop env city fuel (start + 1)).1, r2.sweep = r.sweep + 1) ∨
          (mainLoop env city fuel (start + 1)).2 = LoopEnd.fuelOut ∨
          (mainLoop env city fuel (start + 1)).2 = LoopEnd.cityFatal ∨
          (mainLoop env city fuel (start + 1)).2 = LoopEnd.serverFatal := by
    intro fuel start _ r hsw
    cases hnx : (mainLoop env city fuel (start + 1)).1 with
    | nil =>
      rcases mainLoop_nil_end env city fuel (start + 1) hnx with he | he | he
      · exact Or.inr (Or.inl he)
      · exact Or.inr (Or.inr (Or.inl he))
      · exact Or.inr (Or.inr (Or.inr he))
    | cons r2 rest2 =>
      left
      refine ⟨r2, by simp [hnx], ?_⟩
      rw [hsw]
      exact mainLoop_head_sweep env city fuel (start + 1) r2 rest2 hnx
  have lift : ∀ (fuel start : Nat) (r0 : SweepRecord),
      (∀ r ∈ (mainLoop env city fuel (start + 1)).1,
        r.stop = SweepEnd.transient →
          (∃ r2 ∈ (mainLoop env city fuel (start + 1)).1, r2.sweep = r.sweep + 1) ∨
            (mainLoop env city fuel (start + 1)).2 = LoopEnd.fuelOut ∨
            (mainLoop env city fuel (start + 1)).2 = LoopEnd.cityFatal ∨
            (mainLoop env city fuel (start + 1)).2 = LoopEnd.serverFatal) →
      ∀ r ∈ (mainLoop env city fuel (start + 1)).1,
        r.stop = SweepEnd.transient →
          (∃ r2 ∈ r0 :: (mainLoop env city fuel (start + 1)).1,
            r2.sweep = r.sweep + 1) ∨
            (mainLoop env city fuel (start + 1)).2 = LoopEnd.fuelOut ∨
            (mainLoop env city fuel (start + 1)).2 = LoopEnd.cityFatal ∨
            (mainLoop env city fuel (start + 1)).2 = LoopEnd.serverFatal := by
    intro fuel start r0 ihq r h hstop
    rcases ihq r h hstop with ⟨r2, hr2, hs⟩ | he
    · exact Or.inl ⟨r2, List.mem_cons_of_mem _ hr2, hs⟩
    · exact Or.inr he
  intro fuel
  induction fuel with
  | zero => intro start r h; simp [mainLoop] at h
  | succ fuel ih =>
    intro start r h hstop
    simp only [mainLoop] at h ⊢
    rcases hfe : (env start).fenv with _ | fe
    · simp only [hfe] at h ⊢
      rcases List.mem_cons.mp h with h | h
      · subst h
        exact key fuel start (ih (start + 1)) _ rfl
      · exact lift fuel start _ (ih (start + 1)) r h hstop
    · simp only [hfe] at h ⊢
      rcases hfc : find_centers fe city with e | centers
      · rcases e with c | code | _
        all_goals simp only [hfc] at h ⊢
        · simp at h
        · simp at h
        · rcases List.mem_cons.mp h with h | h
          · subst h
            exact key fuel start (ih (start + 1)) _ rfl
          · exact lift fuel start _ (ih (start + 1)) r h hstop
      · simp only [hfc] at h ⊢
        rcases hsw : (runSweep (env start).tryRes 0 centers).2 with _ | _ | _
        all_goals simp only [hsw] at h ⊢
        · rw [List.mem_singleton] at h
          subst h
          exact absurd hstop (by simp)
        · rcases List.mem_cons.mp h with h | h
          · subst h
            exact key fuel start (ih (start + 1)) _ rfl
          · exact lift fuel start _ (ih (start + 1)) r h hstop
        · rcases List.mem_cons.mp h with h | h
          · subst h
            exact absurd hstop (by simp)
          · exact lift fuel start _ (ih (start + 1)) r h hstop

/-- C7: whenever a transient-network condition ends a sweep — at any
point, including during center enumeration itself — the `while True`
loop pauses (`sleep(1)`) and starts a whole new sweep from center
enumeration: the records of the loop's iterations carry consecutive
sweep numbers; every iteration's attempted centers are a prefix of the
full list freshly enumerated by `find_centers` for that very iteration
(hence no cursor into a previous iteration's list is ever resumed); a
transient sweep always pauses; and after a transient sweep the loop
continues with the next sweep unless the run stops for an unrelated
reason (model fuel, `CityNotFound`, a fatal server error). -/
theorem C7_sweep_restart (env : Nat → SweepEnv) (city : String)
    (fuel start : Nat) :
    ((mainLoop env city fuel start).1.map (fun r => r.sweep) =
        List.range' start (mainLoop env city fuel start).1.length) ∧
    (∀ r ∈ (mainLoop env city fuel start).1,
        r.enumerated = enumOf (env r.sweep) city ∧
          ∃ t, r.attempted ++ t = r.enumerated) ∧
    (∀ r ∈ (mainLoop env city fuel start).1,
        r.stop = SweepEnd.transient → r.pausedAfter = true) ∧
    (∀ r ∈ (mainLoop env city fuel start).1,
        r.stop = SweepEnd.transient →
          (∃ r2 ∈ (mainLoop env city fuel start).1, r2.sweep = r.sweep + 1) ∨
            (mainLoop env city fuel start).2 = LoopEnd.fuelOut ∨
            (mainLoop env city fuel start).2 = LoopEnd.cityFatal ∨
            (mainLoop env city fuel start).2 = LoopEnd.serverFatal) :=
  ⟨mainLoop_sweeps env city fuel start, mainLoop_enum env city fuel start,
   mainLoop_pause env city fuel start, mainLoop_continue env city fuel start⟩

/-- A concrete loop environment: the first sweep hits a transient-network
failure at its first center, every later sweep books its first center.
The search always succeeds with no results, so for `berlin` each sweep
enumerates exactly the hard-coded fallback center. -/
def loopEnvW : Nat → SweepEnv := fun i =>
  if i = 0 then ⟨some ⟨SearchOutcome.ok [], fun _ => none⟩, fun _ => CRes.transient⟩
  else ⟨some ⟨SearchOutcome.ok [], fun _ => none⟩, fun _ => CRes.booked⟩

/-- The record of `loopEnvW`'s first sweep: interrupted by a transient
failure at the first center, followed by a pause. -/
def loopRecW : SweepRecord :=
  ⟨0, [berlinFallback], [berlinFallback], SweepEnd.transient, true⟩

/-- Witness for C7: in the concrete run the transient sweep 0 attempted a
prefix of its own fresh enumeration, paused, and was followed by sweep 1. -/
theorem C7_sweep_restart_witness :
    (loopRecW.enumerated = enumOf (loopEnvW loopRecW.sweep) "berlin" ∧
      ∃ t, loopRecW.attempted ++ t = loopRecW.enumerated) ∧
    loopRecW.pausedAfter = true ∧
    ((∃ r2 ∈ (mainLoop loopEnvW "berlin" 3 0).1, r2.sweep = loopRecW.sweep + 1) ∨
      (mainLoop loopEnvW "berlin" 3 0).2 = LoopEnd.fuelOut ∨
      (mainLoop loopEnvW "berlin" 3 0).2 = LoopEnd.cityFatal ∨
      (mainLoop loopEnvW "berlin" 3 0).2 = LoopEnd.serverFatal) :=
  ⟨(C7_sweep_restart loopEnvW "berlin" 3 0).2.1 loopRecW (by decide),
   (C7_sweep_restart loopEnvW "berlin" 3 0).2.2.1 loopRecW (by decide) rfl,
   (C7_sweep_restart loopEnvW "berlin" 3 0).2.2.2 loopRecW (by decide) rfl⟩

end Docto
